import Mathlib

/-!
Verification of the `bchannel` crate (src/lib.rs): a point-to-point channel
built on `std::sync::mpsc` whose envelopes carry either a payload value or a
terminal application error.

The shallow embedding models the underlying mpsc transport as an explicit
FIFO queue together with a live-producer count and an environment schedule
`aliveAt : Nat → Bool` saying whether the consumer end of the channel is
still alive at the k-th send attempt (`clock` counts send attempts).  A drop
of the `mpsc::Receiver` is an action of the environment, so the schedule is
quantified over; where the permanence of the drop matters we assume the
schedule never resurrects the consumer (`DeadStaysDead`).

All sender/receiver state that lives in `Cell`/`RwLock` fields of the Rust
structs is threaded explicitly: each operation takes the handle state and the
transport and returns its result together with the updated states.
-/

set_option linter.unusedVariables false

/-- `CommMsg<T, E>` from src/lib.rs: the tagged envelope carried over the
transport — either a payload value or a terminal error value. -/
inductive CommMsg (T E : Type) where
  | Message : T → CommMsg T E
  | Error : E → CommMsg T E
  deriving DecidableEq

/-- The underlying `std::sync::mpsc` channel state, as seen through the
operations the crate uses: an unbounded FIFO `queue` of envelopes, the number
`producers` of live `mpsc::Sender` handles (receive on an empty queue reports
a disconnect exactly when it is zero), and the environment schedule
`aliveAt`/`clock`: the k-th send attempt succeeds iff the consumer end is
still alive at time k. -/
structure Transport (T E : Type) where
  queue : List (CommMsg T E)
  producers : Nat
  aliveAt : Nat → Bool
  clock : Nat

/-- `mpsc::Sender::send`: if the consumer end is alive the envelope is
enqueued and the call reports success; otherwise the call fails and (per the
mpsc contract) the very envelope that was passed in comes back to the caller
inside the `SendError`, so a failed send leaves the queue unchanged.  Either
way the attempt consumes one tick of the schedule clock. -/
def Transport.mpscSend (tr : Transport T E) (m : CommMsg T E) :
    Bool × Transport T E :=
  if tr.aliveAt tr.clock then
    (true, { tr with queue := tr.queue ++ [m], clock := tr.clock + 1 })
  else
    (false, { tr with clock := tr.clock + 1 })

/-- Result of `mpsc::Receiver::try_recv`. -/
inductive TryRecvResult (T E : Type) where
  | ok : CommMsg T E → TryRecvResult T E
  | empty : TryRecvResult T E
  | disconnected : TryRecvResult T E

/-- `mpsc::Receiver::try_recv`: pop the front envelope if one is queued;
on an empty queue report `Disconnected` when no producer handle remains and
`Empty` otherwise. -/
def Transport.tryRecv (tr : Transport T E) :
    TryRecvResult T E × Transport T E :=
  match tr.queue with
  | m :: rest => (TryRecvResult.ok m, { tr with queue := rest })
  | [] =>
      if tr.producers = 0 then (TryRecvResult.disconnected, tr)
      else (TryRecvResult.empty, tr)

/-- `mpsc::Receiver::recv` (blocking): pop the front envelope if one is
queued (`some (some m, _)`); on an empty queue return `RecvError`
(`some (none, _)`) when no producer remains, and otherwise block — modelled
as the outer `none`, since no later state of this call exists. -/
def Transport.recvBlocking (tr : Transport T E) :
    Option (Option (CommMsg T E) × Transport T E) :=
  match tr.queue with
  | m :: rest => some (some m, { tr with queue := rest })
  | [] =>
      if tr.producers = 0 then some (none, tr)
      else none

/-- Dropping one `mpsc::Sender` handle: the live-producer count decreases. -/
def Transport.dropProducer (tr : Transport T E) : Transport T E :=
  { tr with producers := tr.producers - 1 }

/-- `mpsc::Sender::clone` on the inner handle: one more live producer. -/
def Transport.cloneProducer (tr : Transport T E) : Transport T E :=
  { tr with producers := tr.producers + 1 }

/-- `Sender<T, E>` from src/lib.rs, minus the inner `mpsc::Sender` handle
(which is represented by access to the shared `Transport`): only the locally
cached `closed: Cell<bool>` flag remains. -/
structure Sender where
  closed : Bool
  deriving DecidableEq

/-- `Receiver<T, E>` from src/lib.rs, minus the inner `mpsc::Receiver`
handle: the latched `closed` and `errored` cells and the `error` slot. -/
structure Receiver (E : Type) where
  closed : Bool
  errored : Bool
  error : Option E
  deriving DecidableEq

/-- `channel()`: a fresh sender, receiver and transport bound together.  The
environment schedule `f` (when the consumer end will be dropped) is a
parameter of the model. -/
def channel (T E : Type) (f : Nat → Bool) :
    Sender × Receiver E × Transport T E :=
  (⟨false⟩, ⟨false, false, none⟩, ⟨[], 1, f, 0⟩)

/-- `Sender::send` (src/lib.rs lines 79–88): enqueue a `Message` envelope;
on success return `Ok(())`, and on failure set the local `closed` cache and
hand the value back to the caller (the mpsc `SendError` returns exactly the
envelope that was sent, so the recovered payload is `t` itself). -/
def Sender.send (s : Sender) (tr : Transport T E) (t : T) :
    Except T Unit × Sender × Transport T E :=
  match tr.mpscSend (CommMsg.Message t) with
  | (true, tr') => (Except.ok (), s, tr')
  | (false, tr') => (Except.error t, ⟨true⟩, tr')

/-- `Sender::send_all` (src/lib.rs lines 93–106): send the elements of the
iterator one at a time; stop at the first failing send and return the failed
value together with the rest of the iterator, otherwise return `Ok(())`. -/
def Sender.send_all (s : Sender) (tr : Transport T E) :
    List T → Except (T × List T) Unit × Sender × Transport T E
  | [] => (Except.ok (), s, tr)
  | x :: rest =>
      match Sender.send s tr x with
      | (Except.ok (), s', tr') => Sender.send_all s' tr' rest
      | (Except.error x', s', tr') => (Except.error (x', rest), s', tr')

/-- `Sender::close` (src/lib.rs line 109): consumes the Sender; the only
effect is the implicit drop of the inner `mpsc::Sender` handle. -/
def Sender.close (s : Sender) (tr : Transport T E) : Transport T E :=
  tr.dropProducer

/-- `Sender::error` (src/lib.rs lines 112–121): consumes the Sender while
enqueueing a terminal `Error` envelope; on failure the error value comes
back to the caller and the local `closed` cache is set.  (The implicit drop
of the inner handle is a separate `Transport.dropProducer`, applied by the
caller / the step relation, as for `close`.) -/
def Sender.error (s : Sender) (tr : Transport T E) (e : E) :
    Except E Unit × Sender × Transport T E :=
  match tr.mpscSend (CommMsg.Error e) with
  | (true, tr') => (Except.ok (), s, tr')
  | (false, tr') => (Except.error e, ⟨true⟩, tr')

/-- `Sender::is_closed` (src/lib.rs lines 124–126). -/
def Sender.is_closed (s : Sender) : Bool :=
  s.closed

/-- `Clone for Sender` (src/lib.rs lines 129–137): the new handle starts
with a copy of the current cached flag.  (The inner `inner.clone()` is the
separate `Transport.cloneProducer`.) -/
def Sender.clone (s : Sender) : Sender :=
  ⟨s.closed⟩

/-- `Receiver::is_closed` (src/lib.rs lines 227–229). -/
def Receiver.is_closed (r : Receiver E) : Bool :=
  r.closed

/-- `Receiver::recv` (src/lib.rs lines 164–182): short-circuit when already
closed; otherwise `try_recv` on the transport, yielding a message, latching
closed+errored and storing the error on an `Error` envelope, doing nothing
on `Empty`, and latching closed on `Disconnected`. -/
def Receiver.recv (r : Receiver E) (tr : Transport T E) :
    Option T × Receiver E × Transport T E :=
  if r.is_closed then (none, r, tr)
  else
    match tr.tryRecv with
    | (TryRecvResult.ok (CommMsg.Message m), tr') => (some m, r, tr')
    | (TryRecvResult.ok (CommMsg.Error e), tr') =>
        (none, { r with error := some e, closed := true, errored := true }, tr')
    | (TryRecvResult.empty, tr') => (none, r, tr')
    | (TryRecvResult.disconnected, tr') =>
        (none, { r with closed := true }, tr')

/-- `Receiver::recv_block` (src/lib.rs lines 191–208): same as `recv` but
the empty-queue case blocks (outer `none`) instead of returning. -/
def Receiver.recv_block (r : Receiver E) (tr : Transport T E) :
    Option (Option T × Receiver E × Transport T E) :=
  if r.is_closed then some (none, r, tr)
  else
    match tr.recvBlocking with
    | some (some (CommMsg.Message m), tr') => some (some m, r, tr')
    | some (some (CommMsg.Error e), tr') =>
        some (none, { r with error := some e, closed := true, errored := true }, tr')
    | some (none, tr') => some (none, { r with closed := true }, tr')
    | none => none

/-- `Receiver::has_error` (src/lib.rs lines 211–213). -/
def Receiver.has_error (r : Receiver E) : Bool :=
  r.errored

/-- `Receiver::take_error` (src/lib.rs lines 221–224): clears the `errored`
cell and moves the error out of the slot. -/
def Receiver.take_error (r : Receiver E) : Option E × Receiver E :=
  (r.error, { r with errored := false, error := none })

/-- `ReceiverIterator` (src/lib.rs lines 39–42), minus the borrowed/owned
reference to the Receiver (which is threaded explicitly): only the
`blocking` mode flag fixed at construction. -/
structure ReceiverIterator where
  blocking : Bool
  deriving DecidableEq

/-- `Receiver::iter` (src/lib.rs lines 233–238): non-blocking, borrowing. -/
def Receiver.iter : ReceiverIterator :=
  ⟨false⟩

/-- `Receiver::blocking_iter` (src/lib.rs lines 242–247). -/
def Receiver.blocking_iter : ReceiverIterator :=
  ⟨true⟩

/-- `Receiver::into_iter` (src/lib.rs lines 251–256): non-blocking, owning
(ownership is a lifetime matter and has no state in the model). -/
def Receiver.into_iter : ReceiverIterator :=
  ⟨false⟩

/-- `Receiver::into_blocking_iter` (src/lib.rs lines 260–265). -/
def Receiver.into_blocking_iter : ReceiverIterator :=
  ⟨true⟩

/-- `Iterator::next for ReceiverIterator` (src/lib.rs lines 268–278):
`recv_block` when blocking, `recv` otherwise (a non-blocking call never
blocks, hence always `some`). -/
def ReceiverIterator.next (it : ReceiverIterator) (r : Receiver E)
    (tr : Transport T E) : Option (Option T × Receiver E × Transport T E) :=
  if it.blocking then r.recv_block tr else some (r.recv tr)

/-- Driving a `ReceiverIterator` to exhaustion (as `Iterator::collect`
does): call `next` until it yields no value, collecting the values.  `fuel`
bounds the number of calls; the outer `none` means some call blocked. -/
def ReceiverIterator.collect (it : ReceiverIterator) :
    Nat → Receiver E → Transport T E →
    Option (List T × Receiver E × Transport T E)
  | 0, r, tr => some ([], r, tr)
  | fuel + 1, r, tr =>
      match it.next r tr with
      | none => none
      | some (none, r', tr') => some ([], r', tr')
      | some (some v, r', tr') =>
          (ReceiverIterator.collect it fuel r' tr').map
            (fun rest => (v :: rest.1, rest.2))

/-- The results of `n` successive `Receiver::recv` calls, with the final
receiver and transport states. -/
def recvTrace : Nat → Receiver E → Transport T E →
    List (Option T) × Receiver E × Transport T E
  | 0, r, tr => ([], r, tr)
  | n + 1, r, tr =>
      let step := Receiver.recv r tr
      let rest := recvTrace n step.2.1 step.2.2
      (step.1 :: rest.1, rest.2)

/-- The results of `n` successive `Receiver::recv_block` calls; `none` if
any of them blocks. -/
def recvBlockTrace : Nat → Receiver E → Transport T E →
    Option (List (Option T) × Receiver E × Transport T E)
  | 0, r, tr => some ([], r, tr)
  | n + 1, r, tr =>
      match Receiver.recv_block r tr with
      | none => none
      | some (o, r', tr') =>
          (recvBlockTrace n r' tr').map (fun rest => (o :: rest.1, rest.2))

/-!
### A whole-channel state machine

For the reachability claims (which states of the channel a program can
actually drive it into) the sender clones, the single receiver and the
shared transport are bundled into one system state, and every public
operation of the crate becomes a step.  Pure queries (`is_closed`,
`has_error`) read the state without changing it.
-/

/-- A whole channel: the live `Sender` clones (a clone consumed by `close`
or `error` disappears from the list), the single `Receiver`, and the shared
transport. -/
structure Sys (T E : Type) where
  senders : List Sender
  receiver : Receiver E
  transport : Transport T E

/-- The channel as returned by `channel()` under environment schedule `f`:
one sender clone, a fresh receiver, an empty queue. -/
def Sys.init (T E : Type) (f : Nat → Bool) : Sys T E :=
  { senders := [⟨false⟩]
    receiver := ⟨false, false, none⟩
    transport := ⟨[], 1, f, 0⟩ }

/-- One application of a public operation of the crate to the channel.
Sender operations act through clone number `i`; `close` and `error` consume
the clone (and drop its inner producer handle); `clone` duplicates it. -/
inductive Step : Sys T E → Sys T E → Prop where
  | send (sys : Sys T E) (i : Nat) (s : Sender) (t : T)
      (h : sys.senders.get? i = some s) :
      Step sys
        { senders := sys.senders.set i (Sender.send s sys.transport t).2.1
          receiver := sys.receiver
          transport := (Sender.send s sys.transport t).2.2 }
  | send_all (sys : Sys T E) (i : Nat) (s : Sender) (l : List T)
      (h : sys.senders.get? i = some s) :
      Step sys
        { senders := sys.senders.set i (Sender.send_all s sys.transport l).2.1
          receiver := sys.receiver
          transport := (Sender.send_all s sys.transport l).2.2 }
  | close (sys : Sys T E) (i : Nat) (s : Sender)
      (h : sys.senders.get? i = some s) :
      Step sys
        { senders := sys.senders.eraseIdx i
          receiver := sys.receiver
          transport := Sender.close s sys.transport }
  | error (sys : Sys T E) (i : Nat) (s : Sender) (e : E)
      (h : sys.senders.get? i = some s) :
      Step sys
        { senders := sys.senders.eraseIdx i
          receiver := sys.receiver
          transport := ((Sender.error s sys.transport e).2.2).dropProducer }
  | clone (sys : Sys T E) (i : Nat) (s : Sender)
      (h : sys.senders.get? i = some s) :
      Step sys
        { senders := sys.senders ++ [Sender.clone s]
          receiver := sys.receiver
          transport := sys.transport.cloneProducer }
  | recv (sys : Sys T E) :
      Step sys
        { senders := sys.senders
          receiver := (Receiver.recv sys.receiver sys.transport).2.1
          transport := (Receiver.recv sys.receiver sys.transport).2.2 }
  | recv_block (sys : Sys T E) (out : Option T × Receiver E × Transport T E)
      (h : Receiver.recv_block sys.receiver sys.transport = some out) :
      Step sys
        { senders := sys.senders
          receiver := out.2.1
          transport := out.2.2 }
  | take_error (sys : Sys T E) :
      Step sys
        { senders := sys.senders
          receiver := (Receiver.take_error sys.receiver).2
          transport := sys.transport }
  | query (sys : Sys T E) :
      Step sys sys

/-- The channel states reachable from `channel()` under schedule `f` by a
sequence of public operations. -/
inductive Reachable (T E : Type) (f : Nat → Bool) : Sys T E → Prop where
  | init : Reachable T E f (Sys.init T E f)
  | step {sys sys' : Sys T E} :
      Reachable T E f sys → Step sys sys' → Reachable T E f sys'

/-- A schedule under which a dropped consumer end stays dropped — the Rust
ownership guarantee that an `mpsc::Receiver`, once gone, never comes back. -/
def DeadStaysDead (f : Nat → Bool) : Prop :=
  ∀ i j : Nat, i ≤ j → f i = false → f j = false

/-!
### Basic lemmas about the receive operations
-/

theorem recv_closed (r : Receiver E) (tr : Transport T E) (h : r.closed = true) :
    Receiver.recv r tr = (none, r, tr) := by
  simp [Receiver.recv, Receiver.is_closed, h]

theorem recv_block_closed (r : Receiver E) (tr : Transport T E)
    (h : r.closed = true) :
    Receiver.recv_block r tr = some (none, r, tr) := by
  simp [Receiver.recv_block, Receiver.is_closed, h]

theorem recv_message (r : Receiver E) (v : T) (q p f c) (h : r.closed = false) :
    Receiver.recv r ⟨CommMsg.Message v :: q, p, f, c⟩ =
      (some v, r, ⟨q, p, f, c⟩) := by
  simp [Receiver.recv, Receiver.is_closed, Transport.tryRecv, h]

theorem recv_error (r : Receiver E) (e : E) (q : List (CommMsg T E)) (p f c)
    (h : r.closed = false) :
    Receiver.recv r ⟨CommMsg.Error e :: q, p, f, c⟩ =
      (none, { r with closed := true, errored := true, error := some e },
        ⟨q, p, f, c⟩) := by
  simp [Receiver.recv, Receiver.is_closed, Transport.tryRecv, h]

theorem recv_disconnected (r : Receiver E) (f : Nat → Bool) (c : Nat)
    (h : r.closed = false) :
    Receiver.recv r (⟨[], 0, f, c⟩ : Transport T E) =
      (none, { r with closed := true }, ⟨[], 0, f, c⟩) := by
  simp [Receiver.recv, Receiver.is_closed, Transport.tryRecv, h]

theorem recv_empty (r : Receiver E) (p : Nat) (f : Nat → Bool) (c : Nat)
    (h : r.closed = false) (hp : p ≠ 0) :
    Receiver.recv r (⟨[], p, f, c⟩ : Transport T E) = (none, r, ⟨[], p, f, c⟩) := by
  simp [Receiver.recv, Receiver.is_closed, Transport.tryRecv, h, hp]

theorem recv_block_message (r : Receiver E) (v : T) (q p f c)
    (h : r.closed = false) :
    Receiver.recv_block r ⟨CommMsg.Message v :: q, p, f, c⟩ =
      some (some v, r, ⟨q, p, f, c⟩) := by
  simp [Receiver.recv_block, Receiver.is_closed, Transport.recvBlocking, h]

theorem recv_block_error (r : Receiver E) (e : E) (q : List (CommMsg T E)) (p f c)
    (h : r.closed = false) :
    Receiver.recv_block r ⟨CommMsg.Error e :: q, p, f, c⟩ =
      some (none, { r with closed := true, errored := true, error := some e },
        ⟨q, p, f, c⟩) := by
  simp [Receiver.recv_block, Receiver.is_closed, Transport.recvBlocking, h]

theorem recv_block_disconnected (r : Receiver E) (f : Nat → Bool) (c : Nat)
    (h : r.closed = false) :
    Receiver.recv_block r (⟨[], 0, f, c⟩ : Transport T E) =
      some (none, { r with closed := true }, ⟨[], 0, f, c⟩) := by
  simp [Receiver.recv_block, Receiver.is_closed, Transport.recvBlocking, h]

/-!
### Trace lemmas
-/

theorem recvTrace_closed (n : Nat) (r : Receiver E) (tr : Transport T E)
    (h : r.closed = true) :
    recvTrace n r tr = (List.replicate n none, r, tr) := by
  induction n with
  | zero => simp [recvTrace]
  | succ n ih => simp [recvTrace, recv_closed r tr h, ih, List.replicate_succ]

theorem recvTrace_messages (vs : List T) (m : Nat) (r : Receiver E)
    (q : List (CommMsg T E)) (p f c) (h : r.closed = false) :
    recvTrace (vs.length + m) r ⟨vs.map CommMsg.Message ++ q, p, f, c⟩ =
      ((vs.map some) ++ (recvTrace m r ⟨q, p, f, c⟩).1,
        (recvTrace m r ⟨q, p, f, c⟩).2) := by
  induction vs with
  | nil => simp
  | cons v vs ih =>
      have hl : (v :: vs).length + m = (vs.length + m) + 1 := by
        simp [List.length_cons]; omega
      rw [hl]
      simp only [List.map_cons, List.cons_append, recvTrace,
        recv_message r v (vs.map CommMsg.Message ++ q) p f c h]
      simp [ih]

theorem recvTrace_disconnect (k : Nat) (r : Receiver E) (f : Nat → Bool)
    (c : Nat) (h : r.closed = false) :
    recvTrace (k + 1) r (⟨[], 0, f, c⟩ : Transport T E) =
      (List.replicate (k + 1) none, { r with closed := true }, ⟨[], 0, f, c⟩) := by
  simp [recvTrace, recv_disconnected r f c h,
    recvTrace_closed k ({ r with closed := true }), List.replicate_succ]

theorem recvTrace_error_head (k : Nat) (r : Receiver E) (e : E)
    (q : List (CommMsg T E)) (p f c) (h : r.closed = false) :
    recvTrace (k + 1) r ⟨CommMsg.Error e :: q, p, f, c⟩ =
      (List.replicate (k + 1) none,
        { r with closed := true, errored := true, error := some e },
        ⟨q, p, f, c⟩) := by
  simp [recvTrace, recv_error r e q p f c h,
    recvTrace_closed k ({ r with closed := true, errored := true, error := some e }),
    List.replicate_succ]

theorem recvBlockTrace_closed (n : Nat) (r : Receiver E) (tr : Transport T E)
    (h : r.closed = true) :
    recvBlockTrace n r tr = some (List.replicate n none, r, tr) := by
  induction n with
  | zero => simp [recvBlockTrace]
  | succ n ih =>
      simp [recvBlockTrace, recv_block_closed r tr h, ih, List.replicate_succ]

theorem recvBlockTrace_messages (vs : List T) (m : Nat) (r : Receiver E)
    (q : List (CommMsg T E)) (p f c) (h : r.closed = false) :
    recvBlockTrace (vs.length + m) r ⟨vs.map CommMsg.Message ++ q, p, f, c⟩ =
      (recvBlockTrace m r ⟨q, p, f, c⟩).map
        (fun rest => ((vs.map some) ++ rest.1, rest.2)) := by
  induction vs with
  | nil => cases hm : recvBlockTrace m r (⟨q, p, f, c⟩ : Transport T E) <;> simp [hm]
  | cons v vs ih =>
      have hl : (v :: vs).length + m = (vs.length + m) + 1 := by
        simp [List.length_cons]; omega
      rw [hl]
      simp only [List.map_cons, List.cons_append, recvBlockTrace,
        recv_block_message r v (vs.map CommMsg.Message ++ q) p f c h]
      rw [ih]
      cases hm : recvBlockTrace m r (⟨q, p, f, c⟩ : Transport T E) <;> simp [hm]

theorem recvBlockTrace_disconnect (k : Nat) (r : Receiver E) (f : Nat → Bool)
    (c : Nat) (h : r.closed = false) :
    recvBlockTrace (k + 1) r (⟨[], 0, f, c⟩ : Transport T E) =
      some (List.replicate (k + 1) none, { r with closed := true },
        ⟨[], 0, f, c⟩) := by
  simp [recvBlockTrace, recv_block_disconnected r f c h,
    recvBlockTrace_closed k ({ r with closed := true }), List.replicate_succ]

theorem recvBlockTrace_error_head (k : Nat) (r : Receiver E) (e : E)
    (q : List (CommMsg T E)) (p f c) (h : r.closed = false) :
    recvBlockTrace (k + 1) r ⟨CommMsg.Error e :: q, p, f, c⟩ =
      some (List.replicate (k + 1) none,
        { r with closed := true, errored := true, error := some e },
        ⟨q, p, f, c⟩) := by
  simp [recvBlockTrace, recv_block_error r e q p f c h,
    recvBlockTrace_closed k
      ({ r with closed := true, errored := true, error := some e }),
    List.replicate_succ]

/-- `send_all` under a schedule that keeps the consumer alive: every element
is delivered, in order, at the tail of the queue. -/
theorem send_all_alive (vs : List T) (s : Sender) (q : List (CommMsg T E))
    (p c : Nat) :
    Sender.send_all s ⟨q, p, fun _ => true, c⟩ vs =
      (Except.ok (), s,
        ⟨q ++ vs.map CommMsg.Message, p, fun _ => true, c + vs.length⟩) := by
  induction vs generalizing q c with
  | nil => simp [Sender.send_all]
  | cons v vs ih =>
      simp only [Sender.send_all, Sender.send, Transport.mpscSend]
      simp [ih (q ++ [CommMsg.Message v]) (c + 1)]
      omega

/-!
### Claim theorems: terminating scenarios
-/

/-- C1: for every finite sequence of values sent through a Sender followed
by `close()`, successive `recv` (and `recv_block`) calls yield exactly those
values in send order, then yield `None` forever, and from the first `None`
on `is_closed()` returns true on every call (the receiver ends closed and
recv on a closed receiver leaves it closed). -/
theorem claim_C1_close_delivery (T E : Type) (vs : List T) (k : Nat) :
    channel T E (fun _ => true) =
      (⟨false⟩, ⟨false, false, none⟩, ⟨[], 1, fun _ => true, 0⟩)
    ∧ (Sender.send_all ⟨false⟩ (⟨[], 1, fun _ => true, 0⟩ : Transport T E) vs).1
        = Except.ok ()
    ∧ Sender.close
        (Sender.send_all ⟨false⟩ (⟨[], 1, fun _ => true, 0⟩ : Transport T E) vs).2.1
        (Sender.send_all ⟨false⟩ (⟨[], 1, fun _ => true, 0⟩ : Transport T E) vs).2.2
        = ⟨vs.map CommMsg.Message, 0, fun _ => true, vs.length⟩
    ∧ recvTrace (vs.length + (k + 1)) ⟨false, false, none⟩
        (⟨vs.map CommMsg.Message, 0, fun _ => true, vs.length⟩ : Transport T E)
        = (vs.map some ++ List.replicate (k + 1) none, ⟨true, false, none⟩,
            ⟨[], 0, fun _ => true, vs.length⟩)
    ∧ Receiver.is_closed (⟨true, false, none⟩ : Receiver E) = true
    ∧ recvBlockTrace (vs.length + (k + 1)) ⟨false, false, none⟩
        (⟨vs.map CommMsg.Message, 0, fun _ => true, vs.length⟩ : Transport T E)
        = some (vs.map some ++ List.replicate (k + 1) none, ⟨true, false, none⟩,
            ⟨[], 0, fun _ => true, vs.length⟩) := by
  refine ⟨rfl, ?_, ?_, ?_, rfl, ?_⟩
  · rw [send_all_alive]
  · rw [send_all_alive]
    simp [Sender.close, Transport.dropProducer]
  · have h1 := recvTrace_messages vs (k + 1) (⟨false, false, none⟩ : Receiver E)
      ([] : List (CommMsg T E)) 0 (fun _ => true) vs.length rfl
    have h2 := recvTrace_disconnect (T := T) k (⟨false, false, none⟩ : Receiver E)
      (fun _ => true) vs.length rfl
    rw [List.append_nil] at h1
    rw [h1, h2]
  · have h1 := recvBlockTrace_messages vs (k + 1) (⟨false, false, none⟩ : Receiver E)
      ([] : List (CommMsg T E)) 0 (fun _ => true) vs.length rfl
    have h2 := recvBlockTrace_disconnect (T := T) k (⟨false, false, none⟩ : Receiver E)
      (fun _ => true) vs.length rfl
    rw [List.append_nil] at h1
    rw [h1, h2]
    rfl

/-- C2: for every finite sequence of values sent through a Sender followed
by `error(e)`, successive `recv` (and `recv_block`) calls yield exactly
those values in order, then yield `None` forever; afterwards `is_closed()`
is true, `has_error()` is true, the first `take_error()` returns `Some e`
and every later `take_error()` returns `None`. -/
theorem claim_C2_error_delivery (T E : Type) (vs : List T) (e : E) (k : Nat) :
    (Sender.send_all ⟨false⟩ (⟨[], 1, fun _ => true, 0⟩ : Transport T E) vs).1
        = Except.ok ()
    ∧ (Sender.error
        (Sender.send_all ⟨false⟩ (⟨[], 1, fun _ => true, 0⟩ : Transport T E) vs).2.1
        (Sender.send_all ⟨false⟩ (⟨[], 1, fun _ => true, 0⟩ : Transport T E) vs).2.2
        e).1 = Except.ok ()
    ∧ ((Sender.error
        (Sender.send_all ⟨false⟩ (⟨[], 1, fun _ => true, 0⟩ : Transport T E) vs).2.1
        (Sender.send_all ⟨false⟩ (⟨[], 1, fun _ => true, 0⟩ : Transport T E) vs).2.2
        e).2.2).dropProducer
        = ⟨vs.map CommMsg.Message ++ [CommMsg.Error e], 0, fun _ => true,
            vs.length + 1⟩
    ∧ recvTrace (vs.length + (k + 1)) ⟨false, false, none⟩
        (⟨vs.map CommMsg.Message ++ [CommMsg.Error e], 0, fun _ => true,
            vs.length + 1⟩ : Transport T E)
        = (vs.map some ++ List.replicate (k + 1) none, ⟨true, true, some e⟩,
            ⟨[], 0, fun _ => true, vs.length + 1⟩)
    ∧ recvBlockTrace (vs.length + (k + 1)) ⟨false, false, none⟩
        (⟨vs.map CommMsg.Message ++ [CommMsg.Error e], 0, fun _ => true,
            vs.length + 1⟩ : Transport T E)
        = some (vs.map some ++ List.replicate (k + 1) none, ⟨true, true, some e⟩,
            ⟨[], 0, fun _ => true, vs.length + 1⟩)
    ∧ Receiver.is_closed (⟨true, true, some e⟩ : Receiver E) = true
    ∧ Receiver.has_error (⟨true, true, some e⟩ : Receiver E) = true
    ∧ (Receiver.take_error (⟨true, true, some e⟩ : Receiver E)).1 = some e
    ∧ (Receiver.take_error
        (Receiver.take_error (⟨true, true, some e⟩ : Receiver E)).2).1 = none := by
  refine ⟨?_, ?_, ?_, ?_, ?_, rfl, rfl, rfl, rfl⟩
  · rw [send_all_alive]
  · rw [send_all_alive]
    simp [Sender.error, Transport.mpscSend]
  · rw [send_all_alive]
    simp [Sender.error, Transport.mpscSend, Transport.dropProducer]
  · have h1 := recvTrace_messages vs (k + 1) (⟨false, false, none⟩ : Receiver E)
      [CommMsg.Error e] 0 (fun _ => true) (vs.length + 1) rfl
    have h2 := recvTrace_error_head k (⟨false, false, none⟩ : Receiver E) e
      ([] : List (CommMsg T E)) 0 (fun _ => true) (vs.length + 1) rfl
    rw [h1, h2]
  · have h1 := recvBlockTrace_messages vs (k + 1) (⟨false, false, none⟩ : Receiver E)
      [CommMsg.Error e] 0 (fun _ => true) (vs.length + 1) rfl
    have h2 := recvBlockTrace_error_head k (⟨false, false, none⟩ : Receiver E) e
      ([] : List (CommMsg T E)) 0 (fun _ => true) (vs.length + 1) rfl
    rw [h1, h2]
    rfl

/-!
### Structural lemmas: what a single operation can do to the state
-/

/-- `recv` leaves the receiver alone, latches `closed`, or latches
`closed`+`errored` while storing an error — nothing else. -/
theorem recv_receiver_cases (r : Receiver E) (tr : Transport T E) :
    (Receiver.recv r tr).2.1 = r
    ∨ (Receiver.recv r tr).2.1 = { r with closed := true }
    ∨ ∃ e, (Receiver.recv r tr).2.1 =
        { r with closed := true, errored := true, error := some e } := by
  rcases tr with ⟨q, p, f, c⟩
  by_cases hcl : r.closed
  · rw [recv_closed _ _ hcl]; left; rfl
  · replace hcl : r.closed = false := by simpa using hcl
    cases q with
    | nil =>
        rcases Nat.eq_zero_or_pos p with hp | hp
        · subst hp; rw [recv_disconnected _ _ _ hcl]; right; left; rfl
        · rw [recv_empty _ _ _ _ hcl (Nat.pos_iff_ne_zero.mp hp)]; left; rfl
    | cons m rest =>
        cases m with
        | Message v => rw [recv_message _ _ _ _ _ _ hcl]; left; rfl
        | Error e =>
            rw [recv_error _ _ _ _ _ _ hcl]; right; right; exact ⟨e, rfl⟩

/-- Same case split for `recv_block`, for the calls that return. -/
theorem recv_block_receiver_cases (r : Receiver E) (tr : Transport T E)
    (out : Option T × Receiver E × Transport T E)
    (h : Receiver.recv_block r tr = some out) :
    out.2.1 = r
    ∨ out.2.1 = { r with closed := true }
    ∨ ∃ e, out.2.1 =
        { r with closed := true, errored := true, error := some e } := by
  rcases tr with ⟨q, p, f, c⟩
  by_cases hcl : r.closed
  · rw [recv_block_closed _ _ hcl] at h
    cases h; left; rfl
  · replace hcl : r.closed = false := by simpa using hcl
    cases q with
    | nil =>
        rcases Nat.eq_zero_or_pos p with hp | hp
        · subst hp
          rw [recv_block_disconnected _ _ _ hcl] at h
          cases h; right; left; rfl
        · exfalso
          have : Receiver.recv_block r (⟨[], p, f, c⟩ : Transport T E) = none := by
            simp [Receiver.recv_block, Receiver.is_closed, hcl,
              Transport.recvBlocking, Nat.pos_iff_ne_zero.mp hp]
          rw [this] at h
          cases h
    | cons m rest =>
        cases m with
        | Message v =>
            rw [recv_block_message _ _ _ _ _ _ hcl] at h
            cases h; left; rfl
        | Error e =>
            rw [recv_block_error _ _ _ _ _ _ hcl] at h
            cases h; right; right; exact ⟨e, rfl⟩

/-- `recv` only ever dequeues: producers, schedule and clock of the
transport are untouched. -/
theorem recv_frame (r : Receiver E) (tr : Transport T E) :
    ((Receiver.recv r tr).2.2).producers = tr.producers
    ∧ ((Receiver.recv r tr).2.2).aliveAt = tr.aliveAt
    ∧ ((Receiver.recv r tr).2.2).clock = tr.clock := by
  rcases tr with ⟨q, p, f, c⟩
  by_cases hcl : r.closed
  · rw [recv_closed _ _ hcl]; exact ⟨rfl, rfl, rfl⟩
  · replace hcl : r.closed = false := by simpa using hcl
    cases q with
    | nil =>
        rcases Nat.eq_zero_or_pos p with hp | hp
        · subst hp; rw [recv_disconnected _ _ _ hcl]; exact ⟨rfl, rfl, rfl⟩
        · rw [recv_empty _ _ _ _ hcl (Nat.pos_iff_ne_zero.mp hp)]
          exact ⟨rfl, rfl, rfl⟩
    | cons m rest =>
        cases m with
        | Message v => rw [recv_message _ _ _ _ _ _ hcl]; exact ⟨rfl, rfl, rfl⟩
        | Error e => rw [recv_error _ _ _ _ _ _ hcl]; exact ⟨rfl, rfl, rfl⟩

/-- Same frame property for `recv_block`. -/
theorem recv_block_frame (r : Receiver E) (tr : Transport T E)
    (out : Option T × Receiver E × Transport T E)
    (h : Receiver.recv_block r tr = some out) :
    (out.2.2).producers = tr.producers
    ∧ (out.2.2).aliveAt = tr.aliveAt
    ∧ (out.2.2).clock = tr.clock := by
  rcases tr with ⟨q, p, f, c⟩
  by_cases hcl : r.closed
  · rw [recv_block_closed _ _ hcl] at h; cases h; exact ⟨rfl, rfl, rfl⟩
  · replace hcl : r.closed = false := by simpa using hcl
    cases q with
    | nil =>
        rcases Nat.eq_zero_or_pos p with hp | hp
        · subst hp
          rw [recv_block_disconnected _ _ _ hcl] at h
          cases h; exact ⟨rfl, rfl, rfl⟩
        · exfalso
          have : Receiver.recv_block r (⟨[], p, f, c⟩ : Transport T E) = none := by
            simp [Receiver.recv_block, Receiver.is_closed, hcl,
              Transport.recvBlocking, Nat.pos_iff_ne_zero.mp hp]
          rw [this] at h
          cases h
    | cons m rest =>
        cases m with
        | Message v =>
            rw [recv_block_message _ _ _ _ _ _ hcl] at h
            cases h; exact ⟨rfl, rfl, rfl⟩
        | Error e =>
            rw [recv_block_error _ _ _ _ _ _ hcl] at h
            cases h; exact ⟨rfl, rfl, rfl⟩

/-- `send` under a consumer that never comes back: the schedule is
untouched, the clock only grows, and if the cache ends up set then the
consumer is dead from the new clock onwards. -/
theorem send_cache_dead {f : Nat → Bool} (hf : DeadStaysDead f)
    (s : Sender) (tr : Transport T E) (t : T) (htr : tr.aliveAt = f)
    (h : s.closed = true → f tr.clock = false) :
    ((Sender.send s tr t).2.2).aliveAt = f
    ∧ tr.clock ≤ ((Sender.send s tr t).2.2).clock
    ∧ ((Sender.send s tr t).2.1.closed = true →
        f ((Sender.send s tr t).2.2).clock = false) := by
  unfold Sender.send Transport.mpscSend
  by_cases ha : tr.aliveAt tr.clock
  · simp only [ha, if_pos]
    refine ⟨htr, Nat.le_succ _, fun hs => ?_⟩
    rw [htr] at ha
    rw [h hs] at ha
    cases ha
  · have ha' : tr.aliveAt tr.clock = false := by simpa using ha
    simp only [ha', Bool.false_eq_true, if_false]
    refine ⟨htr, Nat.le_succ _, fun _ => ?_⟩
    rw [htr] at ha'
    exact hf tr.clock (tr.clock + 1) (Nat.le_succ _) ha'

/-- The same for `error`. -/
theorem error_cache_dead {f : Nat → Bool} (hf : DeadStaysDead f)
    (s : Sender) (tr : Transport T E) (e : E) (htr : tr.aliveAt = f)
    (h : s.closed = true → f tr.clock = false) :
    ((Sender.error s tr e).2.2).aliveAt = f
    ∧ tr.clock ≤ ((Sender.error s tr e).2.2).clock
    ∧ ((Sender.error s tr e).2.1.closed = true →
        f ((Sender.error s tr e).2.2).clock = false) := by
  unfold Sender.error Transport.mpscSend
  by_cases ha : tr.aliveAt tr.clock
  · simp only [ha, if_pos]
    refine ⟨htr, Nat.le_succ _, fun hs => ?_⟩
    rw [htr] at ha
    rw [h hs] at ha
    cases ha
  · have ha' : tr.aliveAt tr.clock = false := by simpa using ha
    simp only [ha', Bool.false_eq_true, if_false]
    refine ⟨htr, Nat.le_succ _, fun _ => ?_⟩
    rw [htr] at ha'
    exact hf tr.clock (tr.clock + 1) (Nat.le_succ _) ha'

/-- The same for `send_all`, by induction over the sent list. -/
theorem send_all_cache_dead {f : Nat → Bool} (hf : DeadStaysDead f)
    (l : List T) (s : Sender) (tr : Transport T E) (htr : tr.aliveAt = f)
    (h : s.closed = true → f tr.clock = false) :
    ((Sender.send_all s tr l).2.2).aliveAt = f
    ∧ tr.clock ≤ ((Sender.send_all s tr l).2.2).clock
    ∧ ((Sender.send_all s tr l).2.1.closed = true →
        f ((Sender.send_all s tr l).2.2).clock = false) := by
  induction l generalizing s tr with
  | nil => exact ⟨htr, Nat.le_refl _, h⟩
  | cons x rest ih =>
      have hstep := send_cache_dead hf s tr x htr h
      rcases hsend : Sender.send s tr x with ⟨res, s', tr'⟩
      rw [hsend] at hstep
      simp only [Sender.send_all, hsend]
      cases res with
      | ok u =>
          cases u
          have := ih s' tr' hstep.1 hstep.2.2
          exact ⟨this.1, Nat.le_trans hstep.2.1 this.2.1, this.2.2⟩
      | error x' =>
          exact ⟨hstep.1, hstep.2.1, hstep.2.2⟩

/-- `send_all` against a consumer that disappears after send attempt `m`:
all attempts strictly before `m` are delivered and the attempt at `m` fails,
handing back the failed value and the unconsumed remainder. -/
theorem send_all_until (m : Nat) (pre : List T) (x : T) (rest : List T)
    (s : Sender) (q : List (CommMsg T E)) (p c : Nat)
    (hc : c + pre.length = m) :
    Sender.send_all s ⟨q, p, fun k => decide (k < m), c⟩ (pre ++ x :: rest) =
      (Except.error (x, rest), ⟨true⟩,
        ⟨q ++ pre.map CommMsg.Message, p, fun k => decide (k < m), m + 1⟩) := by
  induction pre generalizing s q c with
  | nil =>
      simp only [List.length_nil, Nat.add_zero] at hc
      subst hc
      simp [Sender.send_all, Sender.send, Transport.mpscSend]
  | cons v pre ih =>
      have hlt : c < m := by
        simp only [List.length_cons] at hc
        omega
      have hstep : Sender.send s (⟨q, p, fun k => decide (k < m), c⟩ : Transport T E) v =
          (Except.ok (), s,
            ⟨q ++ [CommMsg.Message v], p, fun k => decide (k < m), c + 1⟩) := by
        simp [Sender.send, Transport.mpscSend, hlt]
      have hc' : (c + 1) + pre.length = m := by
        simp only [List.length_cons] at hc
        omega
      simp only [List.cons_append, Sender.send_all, hstep]
      have := ih s (q ++ [CommMsg.Message v]) (c + 1) hc'
      simpa [List.append_assoc] using this

/-- One unfolding of `ReceiverIterator.collect`. -/
theorem collect_succ (it : ReceiverIterator) (n : Nat) (r : Receiver E)
    (tr : Transport T E) :
    ReceiverIterator.collect it (n + 1) r tr =
      match it.next r tr with
      | none => none
      | some (none, r', tr') => some ([], r', tr')
      | some (some v, r', tr') =>
          (ReceiverIterator.collect it n r' tr').map
            (fun rest => (v :: rest.1, rest.2)) := rfl

/-- Driving the non-blocking borrowing iterator over an open receiver whose
queue holds exactly the messages `vs` (and at least one producer is alive)
collects exactly `vs`, leaves the receiver open and the queue empty. -/
theorem collect_messages (vs : List T) (r : Receiver E) (p : Nat)
    (f : Nat → Bool) (c : Nat) (h : r.closed = false) (hp : p ≠ 0) :
    ReceiverIterator.collect Receiver.iter (vs.length + 1) r
        ⟨vs.map CommMsg.Message, p, f, c⟩ =
      some (vs, r, ⟨[], p, f, c⟩) := by
  induction vs with
  | nil =>
      simp [ReceiverIterator.collect, ReceiverIterator.next, Receiver.iter,
        recv_empty r p f c h hp]
  | cons v vs ih =>
      have hl : (v :: vs).length + 1 = (vs.length + 1) + 1 := by
        simp [List.length_cons]
      rw [hl, List.map_cons, collect_succ]
      have hnext : ReceiverIterator.next Receiver.iter r
          (⟨CommMsg.Message v :: vs.map CommMsg.Message, p, f, c⟩ : Transport T E) =
          some (some v, r, ⟨vs.map CommMsg.Message, p, f, c⟩) := by
        simp [ReceiverIterator.next, Receiver.iter,
          recv_message r v (vs.map CommMsg.Message) p f c h]
      rw [hnext]
      dsimp only
      rw [ih]
      rfl

/-!
### Claim theorems: single-operation contracts
-/

/-- C3: `send(v)` returns `Ok(())` (enqueueing the message) when the
consumer end is live at this attempt; when the consumer end is gone it
returns `Err` carrying back exactly `v` and sets this Sender's cached
`closed` flag to true (leaving the queue untouched). -/
theorem claim_C3_send_result (s : Sender) (tr : Transport T E) (t : T) :
    (tr.aliveAt tr.clock = true →
      Sender.send s tr t =
        (Except.ok (), s,
          ⟨tr.queue ++ [CommMsg.Message t], tr.producers, tr.aliveAt,
            tr.clock + 1⟩))
    ∧ (tr.aliveAt tr.clock = false →
      Sender.send s tr t =
        (Except.error t, ⟨true⟩,
          ⟨tr.queue, tr.producers, tr.aliveAt, tr.clock + 1⟩)
      ∧ Sender.is_closed (Sender.send s tr t).2.1 = true) := by
  constructor
  · intro h
    simp [Sender.send, Transport.mpscSend, h]
  · intro h
    constructor
    · simp [Sender.send, Transport.mpscSend, h]
    · simp [Sender.send, Transport.mpscSend, h, Sender.is_closed]

/-- Witness for C3 at concrete inputs, one per branch. -/
theorem claim_C3_send_result_witness :
    Sender.send ⟨false⟩ (⟨[], 1, fun _ => true, 0⟩ : Transport Nat Nat) 5 =
      (Except.ok (), ⟨false⟩, ⟨[CommMsg.Message 5], 1, fun _ => true, 1⟩)
    ∧ Sender.send ⟨false⟩ (⟨[], 1, fun _ => false, 0⟩ : Transport Nat Nat) 5 =
      (Except.error 5, ⟨true⟩, ⟨[], 1, fun _ => false, 1⟩) :=
  ⟨(claim_C3_send_result ⟨false⟩ (⟨[], 1, fun _ => true, 0⟩ : Transport Nat Nat) 5).1 rfl,
    ((claim_C3_send_result ⟨false⟩ (⟨[], 1, fun _ => false, 0⟩ : Transport Nat Nat) 5).2 rfl).1⟩

/-- C6: once the receiver is closed, `recv` and `recv_block` return `None`
immediately, touch neither the receiver state nor the transport, and in
particular the result does not depend on the transport at all. -/
theorem claim_C6_closed_short_circuit (r : Receiver E) (tr : Transport T E)
    (h : Receiver.is_closed r = true) :
    Receiver.recv r tr = (none, r, tr)
    ∧ Receiver.recv_block r tr = some (none, r, tr) :=
  ⟨recv_closed r tr h, recv_block_closed r tr h⟩

/-- Witness for C6: a closed receiver in front of a non-empty queue. -/
theorem claim_C6_closed_short_circuit_witness :
    Receiver.recv (⟨true, false, none⟩ : Receiver Nat)
        (⟨[CommMsg.Message 3], 1, fun _ => true, 0⟩ : Transport Nat Nat) =
      (none, ⟨true, false, none⟩, ⟨[CommMsg.Message 3], 1, fun _ => true, 0⟩)
    ∧ Receiver.recv_block (⟨true, false, none⟩ : Receiver Nat)
        (⟨[CommMsg.Message 3], 1, fun _ => true, 0⟩ : Transport Nat Nat) =
      some (none, ⟨true, false, none⟩, ⟨[CommMsg.Message 3], 1, fun _ => true, 0⟩) :=
  claim_C6_closed_short_circuit (⟨true, false, none⟩ : Receiver Nat)
    (⟨[CommMsg.Message 3], 1, fun _ => true, 0⟩ : Transport Nat Nat) rfl

/-- C7: `send_all` consumes its input one element at a time and stops at the
first failing send, returning the failed value and the unconsumed remainder;
if no send fails it returns `Ok(())` with everything delivered.  The second
conjunct is the general first-failure shape, the third is the `[a, b, c]`
scenario with the consumer gone after `a` is delivered: the result is
`Err (b, [c])` with exactly `a` on the queue. -/
theorem claim_C7_send_all (T E : Type) (s : Sender) (q : List (CommMsg T E))
    (p c : Nat) (vs pre rest : List T) (x a b d : T) :
    Sender.send_all s ⟨q, p, fun _ => true, c⟩ vs =
      (Except.ok (), s,
        ⟨q ++ vs.map CommMsg.Message, p, fun _ => true, c + vs.length⟩)
    ∧ Sender.send_all s ⟨q, p, fun k => decide (k < c + pre.length), c⟩
        (pre ++ x :: rest) =
      (Except.error (x, rest), ⟨true⟩,
        ⟨q ++ pre.map CommMsg.Message, p, fun k => decide (k < c + pre.length),
          (c + pre.length) + 1⟩)
    ∧ Sender.send_all ⟨false⟩
        (⟨[], p, fun k => decide (k < 1), 0⟩ : Transport T E) [a, b, d] =
      (Except.error (b, [d]), ⟨true⟩,
        ⟨[CommMsg.Message a], p, fun k => decide (k < 1), 2⟩) := by
  refine ⟨send_all_alive vs s q p c, send_all_until (c + pre.length) pre x rest s q p c rfl, ?_⟩
  have := send_all_until 1 [a] b [d] (⟨false⟩ : Sender)
    ([] : List (CommMsg T E)) p 0 rfl
  simpa using this

/-- C9: draining a borrowing non-blocking iterator of an open channel to
exhaustion does not close the Receiver; after sending further values, a
fresh iterator from the same Receiver yields exactly the newly sent
values. -/
theorem claim_C9_iter_restart (T E : Type) (vs ws : List T) (n : Nat) :
    ReceiverIterator.collect Receiver.iter (vs.length + 1)
        (⟨false, false, none⟩ : Receiver E)
        (⟨vs.map CommMsg.Message, n + 1, fun _ => true, 0⟩ : Transport T E) =
      some (vs, ⟨false, false, none⟩, ⟨[], n + 1, fun _ => true, 0⟩)
    ∧ Receiver.is_closed (⟨false, false, none⟩ : Receiver E) = false
    ∧ Sender.send_all ⟨false⟩ (⟨[], n + 1, fun _ => true, 0⟩ : Transport T E) ws =
      (Except.ok (), ⟨false⟩,
        ⟨ws.map CommMsg.Message, n + 1, fun _ => true, ws.length⟩)
    ∧ ReceiverIterator.collect Receiver.iter (ws.length + 1)
        (⟨false, false, none⟩ : Receiver E)
        (⟨ws.map CommMsg.Message, n + 1, fun _ => true, ws.length⟩ : Transport T E) =
      some (ws, ⟨false, false, none⟩, ⟨[], n + 1, fun _ => true, ws.length⟩) := by
  refine ⟨collect_messages vs _ _ _ _ rfl (Nat.succ_ne_zero n), rfl, ?_,
    collect_messages ws _ _ _ _ rfl (Nat.succ_ne_zero n)⟩
  have := send_all_alive ws (⟨false⟩ : Sender) ([] : List (CommMsg T E)) (n + 1) 0
  simpa using this

/-- C10: `send` and `error` never consult the cached `closed` flag: flipping
it changes neither the result nor the transport effect. -/
theorem claim_C10_send_ignores_cache (s : Sender) (tr : Transport T E)
    (t : T) (e : E) :
    (Sender.send ⟨!s.closed⟩ tr t).1 = (Sender.send s tr t).1
    ∧ (Sender.send ⟨!s.closed⟩ tr t).2.2 = (Sender.send s tr t).2.2
    ∧ (Sender.error ⟨!s.closed⟩ tr e).1 = (Sender.error s tr e).1
    ∧ (Sender.error ⟨!s.closed⟩ tr e).2.2 = (Sender.error s tr e).2.2 := by
  by_cases h : tr.aliveAt tr.clock <;>
    simp [Sender.send, Sender.error, Transport.mpscSend, h]

/-!
### Claim C4: is `errored` latched?
-/

/-- C4 counterexample: after the receiver observes an `Error` envelope,
`has_error()` reports true, but a single `take_error()` — a Receiver
operation — reverts the `errored` flag to false.  So `errored` is not
latched over every sequence of Receiver operations. -/
theorem claim_C4_latched_cex :
    Receiver.has_error
        (Receiver.recv (⟨false, false, none⟩ : Receiver Nat)
          (⟨[CommMsg.Error 7], 1, fun _ => true, 0⟩ : Transport Nat Nat)).2.1 = true
    ∧ Receiver.has_error
        (Receiver.take_error
          (Receiver.recv (⟨false, false, none⟩ : Receiver Nat)
            (⟨[CommMsg.Error 7], 1, fun _ => true, 0⟩ : Transport Nat Nat)).2.1).2 = false :=
  ⟨rfl, rfl⟩

/-- C4 (amended): the `errored` flag is latched across `recv`, `recv_block`
(and the state-free queries `has_error`/`is_closed`); the one operation that
clears it is `take_error`, which resets it together with removing the stored
error. -/
theorem claim_C4_errored_latched_except_take (r : Receiver E)
    (tr : Transport T E) (h : Receiver.has_error r = true) :
    ((Receiver.recv r tr).2.1).errored = true
    ∧ (∀ out, Receiver.recv_block r tr = some out → (out.2.1).errored = true)
    ∧ Receiver.has_error (Receiver.take_error r).2 = false := by
  replace h : r.errored = true := h
  refine ⟨?_, ?_, rfl⟩
  · rcases recv_receiver_cases r tr with h1 | h1 | ⟨e, h1⟩ <;> rw [h1] <;>
      simp [h]
  · intro out hout
    rcases recv_block_receiver_cases r tr out hout with h1 | h1 | ⟨e, h1⟩ <;>
      rw [h1] <;> simp [h]

/-- Witness for the amended C4 at a concrete errored receiver. -/
theorem claim_C4_errored_latched_except_take_witness :
    ((Receiver.recv (⟨false, true, some 3⟩ : Receiver Nat)
        (⟨[], 1, fun _ => true, 0⟩ : Transport Nat Nat)).2.1).errored = true
    ∧ Receiver.has_error
        (Receiver.take_error (⟨false, true, some 3⟩ : Receiver Nat)).2 = false :=
  ⟨(claim_C4_errored_latched_except_take (⟨false, true, some 3⟩ : Receiver Nat)
      (⟨[], 1, fun _ => true, 0⟩ : Transport Nat Nat) rfl).1,
    (claim_C4_errored_latched_except_take (⟨false, true, some 3⟩ : Receiver Nat)
      (⟨[], 1, fun _ => true, 0⟩ : Transport Nat Nat) rfl).2.2⟩

/-!
### Reachability invariants
-/

/-- Every step preserves the implication `errored → closed` on the
receiver. -/
theorem step_errored_closed {sys sys' : Sys T E} (hs : Step sys sys')
    (h : sys.receiver.errored = true → sys.receiver.closed = true) :
    sys'.receiver.errored = true → sys'.receiver.closed = true := by
  cases hs with
  | send i s t hget => exact h
  | send_all i s l hget => exact h
  | close i s hget => exact h
  | error i s e hget => exact h
  | clone i s hget => exact h
  | recv =>
      dsimp only
      rcases recv_receiver_cases sys.receiver sys.transport with h1 | h1 | ⟨e, h1⟩ <;>
        rw [h1]
      · exact h
      · intro _; rfl
      · intro _; rfl
  | recv_block out hout =>
      dsimp only
      rcases recv_block_receiver_cases sys.receiver sys.transport out hout
        with h1 | h1 | ⟨e, h1⟩ <;> rw [h1]
      · exact h
      · intro _; rfl
      · intro _; rfl
  | take_error =>
      dsimp only [Receiver.take_error]
      intro he
      cases he
  | query => exact h

/-- In every reachable channel state, an errored receiver is closed. -/
theorem reachable_errored_closed {f : Nat → Bool} {sys : Sys T E}
    (h : Reachable T E f sys) :
    sys.receiver.errored = true → sys.receiver.closed = true := by
  induction h with
  | init => intro he; simp [Sys.init] at he
  | step hr hs ih => exact step_errored_closed hs ih

/-- The dead-consumer invariant: the transport still carries the schedule
it was created with, and any live clone whose cache is set witnesses that
the consumer is dead at the current clock (hence, the schedule being
non-resurrecting, at every later clock too). -/
def SysDead (f : Nat → Bool) (sys : Sys T E) : Prop :=
  sys.transport.aliveAt = f ∧
  ∀ s ∈ sys.senders, s.closed = true → f sys.transport.clock = false

/-- The dead-consumer invariant holds in every reachable state, for every
schedule under which a dropped consumer stays dropped. -/
theorem reachable_sysDead {f : Nat → Bool} (hf : DeadStaysDead f)
    {sys : Sys T E} (h : Reachable T E f sys) : SysDead f sys := by
  induction h with
  | init =>
      refine ⟨rfl, ?_⟩
      intro s hs hcl
      simp [Sys.init] at hs
      subst hs
      simp at hcl
  | @step sys1 sys2 hr hs ih =>
      obtain ⟨h1, h2⟩ := ih
      cases hs with
      | send i s t hget =>
          have hcd := send_cache_dead hf s sys1.transport t h1
            (h2 s (List.get?_mem hget))
          refine ⟨hcd.1, ?_⟩
          intro s' hs' hcl'
          rcases List.mem_or_eq_of_mem_set hs' with hmem' | rfl
          · exact hf _ _ hcd.2.1 (h2 s' hmem' hcl')
          · exact hcd.2.2 hcl'
      | send_all i s l hget =>
          have hcd := send_all_cache_dead hf l s sys1.transport h1
            (h2 s (List.get?_mem hget))
          refine ⟨hcd.1, ?_⟩
          intro s' hs' hcl'
          rcases List.mem_or_eq_of_mem_set hs' with hmem' | rfl
          · exact hf _ _ hcd.2.1 (h2 s' hmem' hcl')
          · exact hcd.2.2 hcl'
      | close i s hget =>
          refine ⟨h1, ?_⟩
          intro s' hs' hcl'
          exact h2 s' (List.mem_of_mem_eraseIdx hs') hcl'
      | error i s e hget =>
          have hcd := error_cache_dead hf s sys1.transport e h1
            (h2 s (List.get?_mem hget))
          refine ⟨hcd.1, ?_⟩
          intro s' hs' hcl'
          exact hf _ _ hcd.2.1 (h2 s' (List.mem_of_mem_eraseIdx hs') hcl')
      | clone i s hget =>
          refine ⟨h1, ?_⟩
          intro s' hs' hcl'
          rcases List.mem_append.mp hs' with hmem' | hmem'
          · exact h2 s' hmem' hcl'
          · simp at hmem'
            subst hmem'
            exact h2 s (List.get?_mem hget) hcl'
      | recv =>
          have hfr := recv_frame sys1.receiver sys1.transport
          refine ⟨by rw [hfr.2.1, h1], ?_⟩
          intro s' hs' hcl'
          rw [hfr.2.2]
          exact h2 s' hs' hcl'
      | recv_block out hout =>
          have hfr := recv_block_frame sys1.receiver sys1.transport out hout
          refine ⟨by rw [hfr.2.1, h1], ?_⟩
          intro s' hs' hcl'
          rw [hfr.2.2]
          exact h2 s' hs' hcl'
      | take_error => exact ⟨h1, h2⟩
      | query => exact ⟨h1, h2⟩

/-!
### Claim theorems: reachability
-/

/-- C5: in every reachable channel state, `errored = true` implies
`closed = true`; and there is a reachable state (a graceful close) that is
closed but not errored. -/
theorem claim_C5_errored_implies_closed (T E : Type) (f : Nat → Bool) :
    (∀ sys : Sys T E, Reachable T E f sys →
      sys.receiver.errored = true → sys.receiver.closed = true)
    ∧ (∃ sys : Sys T E, Reachable T E f sys ∧
        sys.receiver.closed = true ∧ sys.receiver.errored = false) := by
  refine ⟨fun sys h => reachable_errored_closed h, ?_⟩
  refine ⟨_, Reachable.step (Reachable.step Reachable.init
    (Step.close (Sys.init T E f) 0 ⟨false⟩ rfl)) (Step.recv _), ?_, ?_⟩ <;> rfl

/-- Witness for C5 at a concrete reachable errored state (reached by
`error(5)` then `recv`), concluding it is closed. -/
theorem claim_C5_errored_implies_closed_witness :
    (Sys.mk [] (⟨true, true, some 5⟩ : Receiver Nat)
      (⟨[], 0, fun _ => true, 1⟩ : Transport Nat Nat)).receiver.closed = true :=
  (claim_C5_errored_implies_closed Nat Nat (fun _ => true)).1
    (Sys.mk [] ⟨true, true, some 5⟩ ⟨[], 0, fun _ => true, 1⟩)
    (Reachable.step (Reachable.step Reachable.init
      (Step.error (Sys.init Nat Nat (fun _ => true)) 0 ⟨false⟩ 5 rfl))
      (Step.recv _)) rfl

/-- C8 counterexample (the claim's negation): in no reachable channel state
— under any schedule where the dropped consumer stays dropped, as Rust
ownership guarantees — can one clone's cache read closed while a send on
another clone of the same channel succeeds.  A set cache witnesses that the
consumer is gone, and then every clone's send fails. -/
theorem claim_C8_clone_send_cex :
    ¬ ∃ (T E : Type) (f : Nat → Bool), DeadStaysDead f ∧
      ∃ sys : Sys T E, Reachable T E f sys ∧
        ∃ (i j : Nat) (s s' : Sender), i ≠ j ∧
          sys.senders.get? i = some s ∧ Sender.is_closed s = true ∧
          sys.senders.get? j = some s' ∧
          ∃ t : T, (Sender.send s' sys.transport t).1 = Except.ok () := by
  rintro ⟨T, E, f, hf, sys, hreach, i, j, s, s', hij, hi, hcl, hj, t, hsend⟩
  obtain ⟨h1, h2⟩ := reachable_sysDead hf hreach
  have hdead : sys.transport.aliveAt sys.transport.clock = false := by
    rw [h1]
    exact h2 s (List.get?_mem hi) hcl
  simp [Sender.send, Transport.mpscSend, hdead] at hsend

/-- C8 (amended): there is a reachable state in which one clone's cached
flag is true while another clone's cached flag is still false — but a send
on the other clone fails too; the caches are per-clone, the failure is
not. -/
theorem claim_C8_clone_caches_independent :
    ∃ (f : Nat → Bool), DeadStaysDead f ∧
      ∃ sys : Sys Nat Nat, Reachable Nat Nat f sys ∧
        sys.senders.get? 0 = some ⟨true⟩ ∧ Sender.is_closed ⟨true⟩ = true ∧
        sys.senders.get? 1 = some ⟨false⟩ ∧ Sender.is_closed ⟨false⟩ = false ∧
        ∀ t : Nat, (Sender.send ⟨false⟩ sys.transport t).1 = Except.error t := by
  refine ⟨fun _ => false, fun i j hij hi => rfl, ?_⟩
  refine ⟨Sys.mk [⟨true⟩, ⟨false⟩] ⟨false, false, none⟩
    ⟨[], 2, fun _ => false, 1⟩, ?_, rfl, rfl, rfl, rfl, ?_⟩
  · exact Reachable.step (Reachable.step Reachable.init
      (Step.clone (Sys.init Nat Nat (fun _ => false)) 0 ⟨false⟩ rfl))
      (Step.send _ 0 ⟨false⟩ 5 rfl)
  · intro t
    simp [Sender.send, Transport.mpscSend]
